import Mathlib

/-!
Shallow embedding of the `bram-audio-parser` WAV decoding pipeline.

The embedding covers, from the source:
- `src/wav_binary.rs` : `WavBinary::check` (RIFF/WAVE envelope validation);
  the file-system loading (`WavBinary::from_file`) is the excluded I/O layer,
  so the pipeline is modelled from the loaded byte buffer onward.
- `src/audio_data.rs` : `AudioData::find_data_chunk`, `AudioData::read_format_info`,
  `AudioData::extract_samples`, `AudioData::bytes_to_i16_samples`,
  `AudioData::try_from`.
- `src/audio_presentation.rs` : `RatedAudioData::new`,
  `StereoAudioPresentation::try_from`.
- `src/lib.rs` : `load_presentation`.

Modelling conventions:
- a byte buffer (`Vec<u8>`) is a `List Nat` whose entries are the byte values;
- Rust `u16`/`u32`/`usize` arithmetic is modelled on `Nat` (all quantities in
  the pipeline stay far below any wraparound point: positions grow by
  `8 + chunk_size` with `chunk_size < 2^32`, and no subtraction occurs);
- a Rust computation that can panic (index out of bounds, division by zero,
  arithmetic underflow) or fail with `io::Error` is modelled in `RRes`:
  `RRes.panic` marks a panic, `RRes.error e` an `Err(..)` return value;
- the source uses `io::ErrorKind::InvalidData` for every pipeline error and
  distinguishes the failure causes by message; `ErrKind` has one constructor
  per error-construction site, named after its message;
- the `f32` normalization `(value as f32 + 32768.0) / 65535.0` is modelled
  exactly over `ℚ`.  Every `i16` value is exactly representable in `f32`
  (24-bit significand), `value as f32 + 32768.0` is an exact integer in
  `[0, 65535]`, and IEEE division is correctly rounded, so the `f32` result
  is the correct rounding of the rational `(value + 32768) / 65535`; in
  particular the endpoint results `0 / 65535 = 0` and `65535 / 65535 = 1`
  are produced exactly by the `f32` computation as well.
-/

namespace BramAudio

/-- Error cases of the pipeline.  The source raises every one of them as
`io::ErrorKind::InvalidData` with a distinguishing message; one constructor
per error-construction site. -/
inductive ErrKind where
  /-- "not a valid wav file" — `AudioData::try_from` when `WavBinary::check` fails. -/
  | invalidRiff : ErrKind
  /-- "no chunk format found" — `AudioData::read_format_info`. -/
  | noFormatChunk : ErrKind
  /-- "no data chunk found" — `AudioData::extract_samples`. -/
  | noDataChunk : ErrKind
  /-- "incomplete data chunk" — `AudioData::extract_samples`, header bound. -/
  | incompleteDataChunk : ErrKind
  /-- "Données audio incomplètes" — `AudioData::extract_samples`, payload bound. -/
  | incompleteAudioBytes : ErrKind
  /-- "invalid binary data" — `AudioData::bytes_to_i16_samples`, odd byte count. -/
  | malformedSampleData : ErrKind
  /-- "only mono or stereo audio is supported" — `StereoAudioPresentation::try_from`. -/
  | unsupportedChannelLayout : ErrKind
  deriving DecidableEq, Repr

/-- Outcome of a Rust computation: a panic (index out of bounds, division by
zero), an `Err(..)`, or a success value. -/
inductive RRes (α : Type) where
  | panic : RRes α
  | error : ErrKind → RRes α
  | ok : α → RRes α
  deriving DecidableEq, Repr

/-- Rust slice `data[a..b]` on a byte buffer. -/
def slice (data : List Nat) (a b : Nat) : List Nat :=
  (data.drop a).take (b - a)

/-- Byte read `data[i]`, with default 0.  Used only at positions that the
surrounding code has bounds-checked (an unchecked Rust read is modelled by an
explicit bounds test yielding `RRes.panic` at the call site). -/
def byteAt (data : List Nat) (i : Nat) : Nat :=
  data.getD i 0

/-- Little-endian `u16::from_le_bytes([data[pos], data[pos+1]])`. -/
def readU16LE (data : List Nat) (pos : Nat) : Nat :=
  byteAt data pos + 256 * byteAt data (pos + 1)

/-- Little-endian `u32::from_le_bytes([data[pos], .., data[pos+3]])`. -/
def readU32LE (data : List Nat) (pos : Nat) : Nat :=
  byteAt data pos + 256 * byteAt data (pos + 1)
    + 65536 * byteAt data (pos + 2) + 16777216 * byteAt data (pos + 3)

/-- Chunk identifier `&data[pos..pos+4]`. -/
def chunkId (data : List Nat) (pos : Nat) : List Nat :=
  slice data pos (pos + 4)

/-- Bytes of `b"RIFF"`. -/
def riffMagic : List Nat := [82, 73, 70, 70]

/-- Bytes of `b"WAVE"`. -/
def waveMagic : List Nat := [87, 65, 86, 69]

/-- Bytes of `b"fmt "`. -/
def fmtMagic : List Nat := [102, 109, 116, 32]

/-- Bytes of `b"data"`. -/
def dataMagic : List Nat := [100, 97, 116, 97]

/-- `i16::from_le_bytes([b0, b1])`: two bytes, little-endian, two's
complement. -/
def i16_from_le (b0 b1 : Nat) : Int :=
  let v := b0 + 256 * b1
  if v < 32768 then (v : Int) else (v : Int) - 65536

/-- `WavBinary::check`: the RIFF/WAVE envelope validation
(`len ≥ 12 && data[0..4] == b"RIFF" && data[8..12] == b"WAVE"`). -/
def WavBinary.check (data : List Nat) : Bool :=
  decide (12 ≤ data.length) && decide (slice data 0 4 = riffMagic)
    && decide (slice data 8 12 = waveMagic)

/-- The decoded audio record `AudioData { samples, channels, sample_rate }`
(`channels : u16`, `sample_rate : u32`). -/
structure AudioData where
  samples : List Int
  channels : Nat
  sample_rate : Nat
  deriving DecidableEq, Repr

/-- Loop body of `AudioData::find_data_chunk`: scan forward from `pos` while
`pos + 8 <= data.len()`, returning the header offset of the first `"data"`
chunk, else advancing by `8 + chunk_size`. -/
def AudioData.find_data_chunk_from (data : List Nat) (pos : Nat) : Option Nat :=
  if h : pos + 8 ≤ data.length then
    if chunkId data pos = dataMagic then some pos
    else AudioData.find_data_chunk_from data (pos + 8 + readU32LE data (pos + 4))
  else none
termination_by data.length - pos
decreasing_by omega

/-- `AudioData::find_data_chunk`: the scan starts at offset 12. -/
def AudioData.find_data_chunk (data : List Nat) : Option Nat :=
  AudioData.find_data_chunk_from data 12

/-- Loop body of `AudioData::read_format_info`: scan forward from `pos` while
`pos + 8 < data.len()`.  On finding `"fmt "`, the source reads
`data[pos+10]`, `data[pos+11]` (channels) and `data[pos+12..pos+16]`
(sample rate) with no bounds check: when `data.len() < pos + 16` one of those
index expressions panics, modelled by `RRes.panic`. -/
def AudioData.read_format_info_from (data : List Nat) (pos : Nat) : RRes (Nat × Nat) :=
  if h : pos + 8 < data.length then
    if chunkId data pos = fmtMagic then
      if pos + 16 ≤ data.length then
        RRes.ok (readU16LE data (pos + 10), readU32LE data (pos + 12))
      else RRes.panic
    else AudioData.read_format_info_from data (pos + 8 + readU32LE data (pos + 4))
  else RRes.error ErrKind.noFormatChunk
termination_by data.length - pos
decreasing_by omega

/-- `AudioData::read_format_info`: the scan starts at offset 12. -/
def AudioData.read_format_info (data : List Nat) : RRes (Nat × Nat) :=
  AudioData.read_format_info_from data 12

/-- `AudioData::bytes_to_i16_samples`: odd byte count is an error; otherwise
sample `i` is `i16::from_le_bytes([bytes[2*i], bytes[2*i+1]])` for
`i < bytes.len() / 2` (the source's indexed `for` loop, rendered as a map
over `List.range`). -/
def AudioData.bytes_to_i16_samples (bytes : List Nat) : RRes (List Int) :=
  if bytes.length % 2 ≠ 0 then RRes.error ErrKind.malformedSampleData
  else RRes.ok ((List.range (bytes.length / 2)).map fun i =>
    i16_from_le (byteAt bytes (2 * i)) (byteAt bytes (2 * i + 1)))

/-- `AudioData::extract_samples`: locate the `"data"` chunk, check the two
bounds, slice the payload, convert to samples. -/
def AudioData.extract_samples (data : List Nat) : RRes (List Int) :=
  match AudioData.find_data_chunk data with
  | none => RRes.error ErrKind.noDataChunk
  | some data_pos =>
    if data_pos + 8 > data.length then RRes.error ErrKind.incompleteDataChunk
    else
      let data_size := readU32LE data (data_pos + 4)
      let audio_start := data_pos + 8
      let audio_end := audio_start + data_size
      if audio_end > data.length then RRes.error ErrKind.incompleteAudioBytes
      else AudioData.bytes_to_i16_samples (slice data audio_start audio_end)

/-- `AudioData::try_from(&WavBinary)`: envelope check, then format info, then
samples. -/
def AudioData.try_from (data : List Nat) : RRes AudioData :=
  if WavBinary.check data = false then RRes.error ErrKind.invalidRiff
  else
    match AudioData.read_format_info data with
    | RRes.panic => RRes.panic
    | RRes.error e => RRes.error e
    | RRes.ok (channels, sample_rate) =>
      match AudioData.extract_samples data with
      | RRes.panic => RRes.panic
      | RRes.error e => RRes.error e
      | RRes.ok samples => RRes.ok ⟨samples, channels, sample_rate⟩

/-- The presentation record: two per-channel sequences of normalized points
(`Vec<f32>` in the source, modelled over `ℚ`, see the file comment). -/
structure StereoAudioPresentation where
  left_channel_points : List ℚ
  right_channel_points : List ℚ
  deriving DecidableEq

/-- `RatedAudioData { audio_data, sample_rate }`: the decoded audio paired
with the target display rate. -/
structure RatedAudioData where
  audio_data : AudioData
  sample_rate : Nat
  deriving DecidableEq

/-- `RatedAudioData::new` (the source clones the audio data; a clone is
value-identical, so this is pairing). -/
def RatedAudioData.new (audio_data : AudioData) (sample_rate : Nat) : RatedAudioData :=
  ⟨audio_data, sample_rate⟩

/-- The normalization `(value as f32 + 32768.0) / 65535.0`, modelled exactly
over `ℚ` (see the file comment for the `f32` correspondence). -/
def normalize (v : Int) : ℚ :=
  ((v : ℚ) + 32768) / 65535

/-- `first_sample = samples[frame_index * channels]` in the reducer loop.
The index is in bounds whenever `frame_index < samples.len() / channels`
and `channels ∈ {1, 2}`, which the caller establishes; `getD` with default 0
is therefore exact at every reachable call. -/
def first_sample (samples : List Int) (channels frame_index : Nat) : Int :=
  samples.getD (frame_index * channels) 0

/-- `second_sample = samples[sample_index + 1]` for stereo, else the first
sample, as in the reducer loop. -/
def second_sample (samples : List Int) (channels frame_index : Nat) : Int :=
  if channels = 2 then samples.getD (frame_index * channels + 1) 0
  else first_sample samples channels frame_index

/-- The `while frame_index < total_frames` loop of
`StereoAudioPresentation::try_from`, stepping by `samples_per_interval` and
pushing one normalized point per channel per visited frame.  The `0 < spi`
conjunct only makes the recursion well founded; the caller panics before
reaching the loop when `spi = 0` (see `StereoAudioPresentation.try_from`),
so the loop is never entered with `spi = 0`. -/
def reduce_loop (samples : List Int) (channels spi total_frames frame_index : Nat) :
    List ℚ × List ℚ :=
  if h : frame_index < total_frames ∧ 0 < spi then
    let rest := reduce_loop samples channels spi total_frames (frame_index + spi)
    (normalize (first_sample samples channels frame_index) :: rest.1,
     normalize (second_sample samples channels frame_index) :: rest.2)
  else ([], [])
termination_by total_frames - frame_index
decreasing_by omega

/-- `StereoAudioPresentation::try_from(&RatedAudioData)`:
channel-layout check, then
`samples_per_interval = samples.sample_rate / rated_audio_data.sample_rate`
(a Rust division that panics when the target rate is 0), then
`num_points = (total_frames + samples_per_interval - 1) / samples_per_interval`
(a division that panics when `samples_per_interval = 0`; `num_points` itself
only sizes the vectors), then the reduction loop. -/
def StereoAudioPresentation.try_from (rated_audio_data : RatedAudioData) :
    RRes StereoAudioPresentation :=
  let s := rated_audio_data.audio_data
  if s.channels ≠ 1 ∧ s.channels ≠ 2 then RRes.error ErrKind.unsupportedChannelLayout
  else if rated_audio_data.sample_rate = 0 then RRes.panic
  else
    let samples_per_interval := s.sample_rate / rated_audio_data.sample_rate
    if samples_per_interval = 0 then RRes.panic
    else
      let total_frames := s.samples.length / s.channels
      let points := reduce_loop s.samples s.channels samples_per_interval total_frames 0
      RRes.ok ⟨points.1, points.2⟩

/-- `load_presentation`, from the loaded byte buffer onward (the file read
and `.wav` extension gate of `WavBinary::from_file` are the excluded I/O
layer).  Decode to `AudioData`, pair with the rate, reduce. -/
def load_presentation (data : List Nat) (rate : Nat) : RRes StereoAudioPresentation :=
  match AudioData.try_from data with
  | RRes.panic => RRes.panic
  | RRes.error e => RRes.error e
  | RRes.ok audiodata =>
    StereoAudioPresentation.try_from (RatedAudioData.new audiodata rate)

/-- Modelled from the spec: the repository's `src/` contains only the
rate-parameterized entry point `load_presentation`; the spec (§4.5, §6)
additionally describes `decode_waveform`, a fixed-rate convenience operation
at 5 Hz that is "otherwise identical to the parameterized form", and §9
records that it historically existed as a hardcoded-5 Hz reducer variant.
This definition reproduces that variant: the same pipeline with the 5 Hz
target rate hardcoded into the reducer. -/
def load_presentation_fixed_5hz (data : List Nat) : RRes StereoAudioPresentation :=
  match AudioData.try_from data with
  | RRes.panic => RRes.panic
  | RRes.error e => RRes.error e
  | RRes.ok s =>
    if s.channels ≠ 1 ∧ s.channels ≠ 2 then RRes.error ErrKind.unsupportedChannelLayout
    else
      let samples_per_interval := s.sample_rate / 5
      if samples_per_interval = 0 then RRes.panic
      else
        let total_frames := s.samples.length / s.channels
        let points := reduce_loop s.samples s.channels samples_per_interval total_frames 0
        RRes.ok ⟨points.1, points.2⟩

/-! ## Helper lemmas -/

/-- One-step unfolding of the data-chunk walk. -/
theorem find_data_chunk_from_eq (data : List Nat) (pos : Nat) :
    AudioData.find_data_chunk_from data pos =
      if pos + 8 ≤ data.length then
        if chunkId data pos = dataMagic then some pos
        else AudioData.find_data_chunk_from data (pos + 8 + readU32LE data (pos + 4))
      else none := by
  rw [AudioData.find_data_chunk_from]
  simp

/-- One-step unfolding of the format-chunk walk. -/
theorem read_format_info_from_eq (data : List Nat) (pos : Nat) :
    AudioData.read_format_info_from data pos =
      if pos + 8 < data.length then
        if chunkId data pos = fmtMagic then
          if pos + 16 ≤ data.length then
            RRes.ok (readU16LE data (pos + 10), readU32LE data (pos + 12))
          else RRes.panic
        else AudioData.read_format_info_from data (pos + 8 + readU32LE data (pos + 4))
      else RRes.error ErrKind.noFormatChunk := by
  rw [AudioData.read_format_info_from]
  simp

/-- One-step unfolding of the reducer loop. -/
theorem reduce_loop_eq (samples : List Int) (channels spi total_frames frame_index : Nat) :
    reduce_loop samples channels spi total_frames frame_index =
      if frame_index < total_frames ∧ 0 < spi then
        let rest := reduce_loop samples channels spi total_frames (frame_index + spi)
        (normalize (first_sample samples channels frame_index) :: rest.1,
         normalize (second_sample samples channels frame_index) :: rest.2)
      else ([], []) := by
  rw [reduce_loop]
  simp

/-- Stepping a ceiling division: with a positive interval and at least one
frame left, the remaining point count drops by exactly one after one step. -/
theorem ceil_div_step (d spi : Nat) (hspi : 0 < spi) (hd : 0 < d) :
    (d + spi - 1) / spi = (d - spi + spi - 1) / spi + 1 := by
  have h1 : d + spi - 1 = (d - 1) + spi := by omega
  rw [h1, Nat.add_div_right _ hspi]
  rcases le_or_lt spi d with h | h
  · have h2 : d - spi + spi - 1 = d - 1 := by omega
    rw [h2]
  · have h2 : d - spi = 0 := by omega
    rw [h2, Nat.div_eq_of_lt (by omega), Nat.div_eq_of_lt (by omega)]

/-- Closed form of the reducer loop: starting at `frame_index`, it visits
frames `frame_index + k * spi` for `k` below the remaining ceiling count. -/
theorem reduce_loop_spec (samples : List Int) (channels spi total_frames : Nat)
    (hspi : 0 < spi) (frame_index : Nat) :
    reduce_loop samples channels spi total_frames frame_index =
      ((List.range ((total_frames - frame_index + spi - 1) / spi)).map
          fun k => normalize (first_sample samples channels (frame_index + k * spi)),
       (List.range ((total_frames - frame_index + spi - 1) / spi)).map
          fun k => normalize (second_sample samples channels (frame_index + k * spi))) := by
  induction frame_index using reduce_loop.induct samples channels spi total_frames with
  | case1 x h ih =>
    rw [reduce_loop_eq, if_pos h]
    have hcount : (total_frames - x + spi - 1) / spi
        = (total_frames - (x + spi) + spi - 1) / spi + 1 := by
      have h2 : total_frames - (x + spi) = total_frames - x - spi := by omega
      rw [h2]
      exact ceil_div_step (total_frames - x) spi hspi (by omega)
    rw [hcount, ih, List.range_succ_eq_map]
    simp only [List.map_cons, List.map_map, Prod.mk.injEq]
    constructor
    · congr 1
      · simp
      · apply List.map_congr_left
        intro k _
        simp only [Function.comp_apply, Nat.succ_eq_add_one]
        congr 2
        ring
    · congr 1
      · simp
      · apply List.map_congr_left
        intro k _
        simp only [Function.comp_apply, Nat.succ_eq_add_one]
        congr 2
        ring
  | case2 x h =>
    rw [reduce_loop_eq, if_neg h]
    have hx : total_frames - x = 0 := by omega
    rw [hx]
    rw [Nat.div_eq_of_lt (by omega)]
    simp

/-- The frames visited by the reducer: `0, spi, 2*spi, ...`, one per output
point, `(total_frames + spi - 1) / spi` of them in all. -/
def visited_frames (total_frames spi : Nat) : List Nat :=
  (List.range ((total_frames + spi - 1) / spi)).map fun k => k * spi

/-- The reducer loop started at frame 0 maps the visited frames through
sample selection and normalization. -/
theorem reduce_loop_zero (samples : List Int) (channels spi total_frames : Nat)
    (hspi : 0 < spi) :
    reduce_loop samples channels spi total_frames 0 =
      ((visited_frames total_frames spi).map
          fun f => normalize (first_sample samples channels f),
       (visited_frames total_frames spi).map
          fun f => normalize (second_sample samples channels f)) := by
  rw [reduce_loop_spec samples channels spi total_frames hspi 0]
  simp [visited_frames, List.map_map, Function.comp]

/-- The only error the format walk can produce is `noFormatChunk`. -/
theorem read_format_info_from_error (data : List Nat) (pos : Nat) :
    ∀ e, AudioData.read_format_info_from data pos = RRes.error e →
      e = ErrKind.noFormatChunk := by
  induction pos using AudioData.read_format_info_from.induct data with
  | case1 x h1 h2 h3 =>
    intro e h
    rw [read_format_info_from_eq, if_pos h1, if_pos h2, if_pos h3] at h
    exact absurd h (by simp)
  | case2 x h1 h2 h3 =>
    intro e h
    rw [read_format_info_from_eq, if_pos h1, if_pos h2, if_neg h3] at h
    exact absurd h (by simp)
  | case3 x h1 h2 ih =>
    intro e h
    rw [read_format_info_from_eq, if_pos h1, if_neg h2] at h
    exact ih e h
  | case4 x h1 =>
    intro e h
    rw [read_format_info_from_eq, if_neg h1] at h
    simpa using h.symm

/-! ## Concrete buffers used as witnesses and counterexamples -/

/-- A complete WAV buffer whose format chunk declares 2 channels at 44100 Hz
and whose `"data"` chunk declares 2 bytes (a single sample): the decoded
sample count 1 is not a multiple of the channel count 2. -/
def c2buf : List Nat :=
  [82, 73, 70, 70, 0, 0, 0, 0, 87, 65, 86, 69,
   102, 109, 116, 32, 16, 0, 0, 0, 1, 0, 2, 0, 68, 172, 0, 0,
   0, 0, 0, 0, 0, 0, 16, 0,
   100, 97, 116, 97, 2, 0, 0, 0, 0, 0]

/-- The `AudioData` that `c2buf` decodes to. -/
def c2audio : AudioData := ⟨[0], 2, 44100⟩

theorem c2buf_find : AudioData.find_data_chunk c2buf = some 36 := by
  rw [AudioData.find_data_chunk, find_data_chunk_from_eq,
    if_pos (by decide : 12 + 8 ≤ c2buf.length),
    if_neg (by decide : ¬ chunkId c2buf 12 = dataMagic),
    (by decide : 12 + 8 + readU32LE c2buf (12 + 4) = 36),
    find_data_chunk_from_eq,
    if_pos (by decide : 36 + 8 ≤ c2buf.length),
    if_pos (by decide : chunkId c2buf 36 = dataMagic)]

theorem c2buf_fmt : AudioData.read_format_info c2buf = RRes.ok (2, 44100) := by
  rw [AudioData.read_format_info, read_format_info_from_eq,
    if_pos (by decide : 12 + 8 < c2buf.length),
    if_pos (by decide : chunkId c2buf 12 = fmtMagic),
    if_pos (by decide : 12 + 16 ≤ c2buf.length)]
  decide

theorem c2buf_extract : AudioData.extract_samples c2buf = RRes.ok [0] := by
  simp only [AudioData.extract_samples, c2buf_find]
  decide

theorem c2buf_audio : AudioData.try_from c2buf = RRes.ok c2audio := by
  simp only [AudioData.try_from, c2buf_fmt, c2buf_extract]
  decide

/-- A RIFF/WAVE-valid buffer of length 21 whose `"fmt "` chunk header starts
at offset 12 with only 9 bytes remaining: the format walk admits it
(`12 + 8 < 21`) and the unchecked field reads run past the end. -/
def c4buf : List Nat :=
  [82, 73, 70, 70, 0, 0, 0, 0, 87, 65, 86, 69,
   102, 109, 116, 32, 0, 0, 0, 0, 0]

theorem c4buf_fmt_panics : AudioData.read_format_info c4buf = RRes.panic := by
  rw [AudioData.read_format_info, read_format_info_from_eq,
    if_pos (by decide : 12 + 8 < c4buf.length),
    if_pos (by decide : chunkId c4buf 12 = fmtMagic),
    if_neg (by decide : ¬ 12 + 16 ≤ c4buf.length)]

/-- A RIFF/WAVE-valid buffer whose `"data"` chunk at offset 12 declares 8
payload bytes encoding the samples `[0, 32767, -32768, 1]`. -/
def c7buf : List Nat :=
  [82, 73, 70, 70, 0, 0, 0, 0, 87, 65, 86, 69,
   100, 97, 116, 97, 8, 0, 0, 0, 0, 0, 255, 127, 0, 128, 1, 0]

theorem c7buf_find : AudioData.find_data_chunk c7buf = some 12 := by
  rw [AudioData.find_data_chunk, find_data_chunk_from_eq,
    if_pos (by decide : 12 + 8 ≤ c7buf.length),
    if_pos (by decide : chunkId c7buf 12 = dataMagic)]

/-- A one-sample mono `AudioData` at 5 Hz, reduced at a 5 Hz target rate:
the reducer succeeds with one point per channel. -/
theorem r0_eval : StereoAudioPresentation.try_from ⟨⟨[0], 1, 5⟩, 5⟩
    = RRes.ok ⟨[normalize 0], [normalize 0]⟩ := by
  rw [show StereoAudioPresentation.try_from ⟨⟨[0], 1, 5⟩, 5⟩
      = RRes.ok ⟨(reduce_loop [0] 1 1 1 0).1, (reduce_loop [0] 1 1 1 0).2⟩ from rfl]
  rw [reduce_loop_eq, if_pos (by decide : 0 < 1 ∧ 0 < 1),
    reduce_loop_eq, if_neg (by decide : ¬ (0 + 1 < 1 ∧ 0 < 1))]
  rfl

/-- The format-walk error inversion at the `read_format_info` level. -/
theorem read_format_info_error (data : List Nat) (e : ErrKind)
    (h : AudioData.read_format_info data = RRes.error e) :
    e = ErrKind.noFormatChunk :=
  read_format_info_from_error data 12 e h

/-! ## Claims -/

/-- C1, counterexample: on a mono `AudioData` at source rate 10 reduced at
target rate 20, `samples_per_interval = 10 / 20 = 0` and the reducer does
not return an `UnsupportedChannelLayout`-class error: it reaches the
division by zero in the `num_points` computation and panics. -/
theorem reducer_zero_interval_cex :
    (10 : Nat) / 20 = 0 ∧
    StereoAudioPresentation.try_from ⟨⟨[0, 0], 1, 10⟩, 20⟩ = RRes.panic ∧
    StereoAudioPresentation.try_from ⟨⟨[0, 0], 1, 10⟩, 20⟩
      ≠ RRes.error ErrKind.unsupportedChannelLayout :=
  ⟨rfl, rfl, by decide⟩

/-- C1, amended: the reducer does not guard the zero divisor.  For every
rated audio whose channel count is 1 or 2, whenever
`samples_per_interval = source_sample_rate / target_rate` would be 0 (the
target rate is 0 or exceeds the source rate) the reducer performs an
unguarded division by zero and panics instead of returning an error. -/
theorem reducer_zero_interval_unguarded (r : RatedAudioData)
    (hch : r.audio_data.channels = 1 ∨ r.audio_data.channels = 2)
    (hzero : r.audio_data.sample_rate / r.sample_rate = 0) :
    StereoAudioPresentation.try_from r = RRes.panic := by
  have hc : ¬ (r.audio_data.channels ≠ 1 ∧ r.audio_data.channels ≠ 2) := by
    rcases hch with h | h <;> simp [h]
  simp only [StereoAudioPresentation.try_from]
  rw [if_neg hc]
  by_cases hr : r.sample_rate = 0
  · rw [if_pos hr]
  · rw [if_neg hr, if_pos hzero]

/-- C1, witness for the amended theorem at channel count 1, source rate 10,
target rate 20. -/
theorem reducer_zero_interval_unguarded_witness :
    ((1 : Nat) = 1 ∨ (1 : Nat) = 2) ∧ (10 : Nat) / 20 = 0 ∧
    StereoAudioPresentation.try_from ⟨⟨[0, 0], 1, 10⟩, 20⟩ = RRes.panic :=
  ⟨Or.inl rfl, rfl,
    reducer_zero_interval_unguarded ⟨⟨[0, 0], 1, 10⟩, 20⟩ (Or.inl rfl) rfl⟩

/-- C2, counterexample: `AudioData` construction succeeds on `c2buf`
(stereo format chunk, 2-byte data chunk) yet the resulting sample count 1
is not a multiple of the channel count 2: the stated invariant
`samples.length % channels == 0` is not enforced by `AudioData::try_from`. -/
theorem audio_invariant_cex :
    AudioData.try_from c2buf = RRes.ok c2audio ∧
    c2audio.samples.length % c2audio.channels ≠ 0 :=
  ⟨c2buf_audio, by decide⟩

/-- C2, amended: construction does not validate the sample count against the
channel count.  Whenever `AudioData::try_from` succeeds, the sample count
equals the declared data-chunk size divided by 2, and the invariant
`samples.length % channels == 0` holds exactly when that declared size is a
multiple of `2 * channels`. -/
theorem audio_sample_count_characterization (data : List Nat) (ad : AudioData) (p : Nat)
    (h : AudioData.try_from data = RRes.ok ad)
    (hp : AudioData.find_data_chunk data = some p) :
    ad.samples.length = readU32LE data (p + 4) / 2 ∧
    (ad.samples.length % ad.channels = 0 ↔
      readU32LE data (p + 4) % (2 * ad.channels) = 0) := by
  simp only [AudioData.try_from] at h
  by_cases hw : WavBinary.check data = false
  · rw [if_pos hw] at h
    exact absurd h (by simp)
  rw [if_neg hw] at h
  cases hf : AudioData.read_format_info data with
  | panic =>
    simp only [hf] at h
    exact absurd h (by simp)
  | error ef =>
    simp only [hf] at h
    exact absurd h (by simp)
  | ok fi =>
    obtain ⟨ch, sr⟩ := fi
    simp only [hf] at h
    cases hex : AudioData.extract_samples data with
    | panic =>
      simp only [hex] at h
      exact absurd h (by simp)
    | error ee =>
      simp only [hex] at h
      exact absurd h (by simp)
    | ok samples =>
      simp only [hex] at h
      have had : ad = ⟨samples, ch, sr⟩ := by
        injection h with h2
        exact h2.symm
      subst had
      simp only [AudioData.extract_samples, hp] at hex
      by_cases hb1 : p + 8 > data.length
      · rw [if_pos hb1] at hex
        exact absurd hex (by simp)
      rw [if_neg hb1] at hex
      by_cases hb2 : p + 8 + readU32LE data (p + 4) > data.length
      · rw [if_pos hb2] at hex
        exact absurd hex (by simp)
      rw [if_neg hb2] at hex
      have hlen : (slice data (p + 8) (p + 8 + readU32LE data (p + 4))).length
          = readU32LE data (p + 4) := by
        simp only [slice, List.length_take, List.length_drop]
        omega
      simp only [AudioData.bytes_to_i16_samples] at hex
      by_cases hpar : (slice data (p + 8) (p + 8 + readU32LE data (p + 4))).length % 2 ≠ 0
      · rw [if_pos hpar] at hex
        exact absurd hex (by simp)
      rw [if_neg hpar] at hex
      have heven : readU32LE data (p + 4) % 2 = 0 := by
        rw [hlen] at hpar
        omega
      have hsamples : samples.length = readU32LE data (p + 4) / 2 := by
        injection hex with h3
        rw [← h3]
        simp [hlen]
      refine ⟨hsamples, ?_⟩
      have hS : readU32LE data (p + 4) = 2 * (readU32LE data (p + 4) / 2) := by omega
      rw [hsamples]
      constructor
      · intro h4
        rw [hS, Nat.mul_mod_mul_left]
        simp [h4]
      · intro h4
        rw [hS, Nat.mul_mod_mul_left] at h4
        omega

/-- C2, witness for the amended theorem on `c2buf` (data chunk at offset 36,
declared size 2, stereo): sample count `2 / 2 = 1` and the invariant fails
because 2 is not a multiple of `2 * 2`. -/
theorem audio_sample_count_characterization_witness :
    (AudioData.try_from c2buf = RRes.ok c2audio ∧
      AudioData.find_data_chunk c2buf = some 36) ∧
    (c2audio.samples.length = readU32LE c2buf (36 + 4) / 2 ∧
      (c2audio.samples.length % c2audio.channels = 0 ↔
        readU32LE c2buf (36 + 4) % (2 * c2audio.channels) = 0)) :=
  ⟨⟨c2buf_audio, c2buf_find⟩,
    audio_sample_count_characterization c2buf c2audio 36 c2buf_audio c2buf_find⟩

/-- C3: the fixed-rate convenience operation (modelled from the spec, see
`load_presentation_fixed_5hz`) returns exactly the same result as the
rate-parameterized operation called with rate 5, on every input buffer. -/
theorem fixed_rate_equals_parameterized (data : List Nat) :
    load_presentation_fixed_5hz data = load_presentation data 5 := by
  unfold load_presentation load_presentation_fixed_5hz
  cases AudioData.try_from data <;> rfl

/-- C4: the format-chunk lookup performs no bounds check on its field reads.
The buffer `c4buf` passes RIFF/WAVE validation, the walk admits the `"fmt "`
header at offset 12 with only `21 - 12 = 9 < 16` bytes remaining, the
channel-count field read at index `12 + 10 = 22` is at or beyond the buffer
length 21, and the embedded read takes its out-of-bounds (panic) branch. -/
theorem format_read_out_of_bounds_reachable :
    WavBinary.check c4buf = true ∧
    chunkId c4buf 12 = fmtMagic ∧
    c4buf.length - 12 < 16 ∧
    c4buf.length ≤ 12 + 10 ∧
    AudioData.read_format_info c4buf = RRes.panic :=
  ⟨by decide, by decide, by decide, by decide, c4buf_fmt_panics⟩

/-- C5: the two chunk walks use distinct boundary policies.  The data-chunk
walk continues whenever `pos + 8 ≤ length` (a header ending exactly at the
boundary is accepted), the format-chunk walk only while `pos + 8 < length`;
both start at offset 12, advance by `8` plus the declared little-endian
32-bit chunk size, and report not-found (`none` / `noFormatChunk`) when the
condition fails without the target identifier having been seen. -/
theorem chunk_walk_boundary_policies (data : List Nat) (pos : Nat) :
    (AudioData.find_data_chunk_from data pos =
       if pos + 8 ≤ data.length then
         if chunkId data pos = dataMagic then some pos
         else AudioData.find_data_chunk_from data (pos + 8 + readU32LE data (pos + 4))
       else none)
    ∧ (AudioData.read_format_info_from data pos =
       if pos + 8 < data.length then
         if chunkId data pos = fmtMagic then
           if pos + 16 ≤ data.length then
             RRes.ok (readU16LE data (pos + 10), readU32LE data (pos + 12))
           else RRes.panic
         else AudioData.read_format_info_from data (pos + 8 + readU32LE data (pos + 4))
       else RRes.error ErrKind.noFormatChunk)
    ∧ AudioData.find_data_chunk data = AudioData.find_data_chunk_from data 12
    ∧ AudioData.read_format_info data = AudioData.read_format_info_from data 12 :=
  ⟨find_data_chunk_from_eq data pos, read_format_info_from_eq data pos, rfl, rfl⟩

/-- C6: whenever the pipeline fails, the caller receives exactly one error
and it identifies the first violated precondition in pipeline order: RIFF
envelope, then format chunk, then data chunk and bounds, then sample-byte
parity, then channel layout; each later stage is reached only with all
earlier stages passed, and an error result carries no partial output. -/
theorem pipeline_first_error (data : List Nat) (rate : Nat) (e : ErrKind)
    (h : load_presentation data rate = RRes.error e) :
    (e = ErrKind.invalidRiff ∧ WavBinary.check data = false)
    ∨ (WavBinary.check data = true ∧ e = ErrKind.noFormatChunk ∧
        AudioData.read_format_info data = RRes.error ErrKind.noFormatChunk)
    ∨ (WavBinary.check data = true ∧
        (∃ channels sample_rate,
          AudioData.read_format_info data = RRes.ok (channels, sample_rate)) ∧
        AudioData.extract_samples data = RRes.error e ∧
        ((e = ErrKind.noDataChunk ∧ AudioData.find_data_chunk data = none)
          ∨ (∃ p, AudioData.find_data_chunk data = some p ∧
              ((e = ErrKind.incompleteDataChunk ∧ data.length < p + 8)
                ∨ (e = ErrKind.incompleteAudioBytes ∧ p + 8 ≤ data.length ∧
                    data.length < p + 8 + readU32LE data (p + 4))
                ∨ (e = ErrKind.malformedSampleData ∧
                    p + 8 + readU32LE data (p + 4) ≤ data.length ∧
                    readU32LE data (p + 4) % 2 = 1)))))
    ∨ (∃ audio, AudioData.try_from data = RRes.ok audio ∧
        e = ErrKind.unsupportedChannelLayout ∧
        audio.channels ≠ 1 ∧ audio.channels ≠ 2) := by
  cases hta : AudioData.try_from data with
  | panic =>
    simp only [load_presentation, hta] at h
    exact absurd h (by simp)
  | error e2 =>
    simp only [load_presentation, hta] at h
    injection h with he
    subst he
    simp only [AudioData.try_from] at hta
    by_cases hw : WavBinary.check data = false
    · rw [if_pos hw] at hta
      injection hta with he2
      exact Or.inl ⟨he2.symm, hw⟩
    rw [if_neg hw] at hta
    have hwt : WavBinary.check data = true := by simpa using hw
    cases hf : AudioData.read_format_info data with
    | panic =>
      simp only [hf] at hta
      exact absurd hta (by simp)
    | error ef =>
      simp only [hf] at hta
      injection hta with he2
      have hef := read_format_info_error data ef hf
      refine Or.inr (Or.inl ⟨hwt, ?_, ?_⟩)
      · rw [← he2, hef]
      · rw [hef]
    | ok fi =>
      obtain ⟨ch, sr⟩ := fi
      simp only [hf] at hta
      cases hex : AudioData.extract_samples data with
      | panic =>
        simp only [hex] at hta
        exact absurd hta (by simp)
      | ok samples =>
        simp only [hex] at hta
        exact absurd hta (by simp)
      | error ee =>
        simp only [hex] at hta
        injection hta with he2
        subst he2
        refine Or.inr (Or.inr (Or.inl ⟨hwt, ⟨ch, sr, rfl⟩, rfl, ?_⟩))
        cases hfind : AudioData.find_data_chunk data with
        | none =>
          simp only [AudioData.extract_samples, hfind] at hex
          injection hex with he3
          exact Or.inl ⟨he3.symm, rfl⟩
        | some p =>
          simp only [AudioData.extract_samples, hfind] at hex
          refine Or.inr ⟨p, rfl, ?_⟩
          by_cases hb1 : p + 8 > data.length
          · rw [if_pos hb1] at hex
            injection hex with he3
            exact Or.inl ⟨he3.symm, by omega⟩
          rw [if_neg hb1] at hex
          by_cases hb2 : p + 8 + readU32LE data (p + 4) > data.length
          · rw [if_pos hb2] at hex
            injection hex with he3
            exact Or.inr (Or.inl ⟨he3.symm, by omega, by omega⟩)
          rw [if_neg hb2] at hex
          have hlen : (slice data (p + 8) (p + 8 + readU32LE data (p + 4))).length
              = readU32LE data (p + 4) := by
            simp only [slice, List.length_take, List.length_drop]
            omega
          simp only [AudioData.bytes_to_i16_samples] at hex
          by_cases hpar :
              (slice data (p + 8) (p + 8 + readU32LE data (p + 4))).length % 2 ≠ 0
          · rw [if_pos hpar] at hex
            injection hex with he3
            rw [hlen] at hpar
            exact Or.inr (Or.inr ⟨he3.symm, by omega, by omega⟩)
          · rw [if_neg hpar] at hex
            exact absurd hex (by simp)
  | ok audio =>
    simp only [load_presentation, hta] at h
    simp only [StereoAudioPresentation.try_from, RatedAudioData.new] at h
    by_cases hc : audio.channels ≠ 1 ∧ audio.channels ≠ 2
    · rw [if_pos hc] at h
      injection h with he
      exact Or.inr (Or.inr (Or.inr ⟨audio, rfl, he.symm, hc.1, hc.2⟩))
    rw [if_neg hc] at h
    by_cases hr : rate = 0
    · rw [if_pos hr] at h
      exact absurd h (by simp)
    rw [if_neg hr] at h
    by_cases hI : audio.sample_rate / rate = 0
    · rw [if_pos hI] at h
      exact absurd h (by simp)
    · rw [if_neg hI] at h
      exact absurd h (by simp)

/-- The empty byte buffer. -/
def emptyBuf : List Nat := []

/-- C6, witness: the empty buffer fails RIFF validation, and the claim
theorem places its single error `invalidRiff` at the first stage. -/
theorem pipeline_first_error_witness :
    load_presentation emptyBuf 5 = RRes.error ErrKind.invalidRiff ∧
    ((ErrKind.invalidRiff = ErrKind.invalidRiff ∧ WavBinary.check emptyBuf = false)
    ∨ (WavBinary.check emptyBuf = true ∧ ErrKind.invalidRiff = ErrKind.noFormatChunk ∧
        AudioData.read_format_info emptyBuf = RRes.error ErrKind.noFormatChunk)
    ∨ (WavBinary.check emptyBuf = true ∧
        (∃ channels sample_rate,
          AudioData.read_format_info emptyBuf = RRes.ok (channels, sample_rate)) ∧
        AudioData.extract_samples emptyBuf = RRes.error ErrKind.invalidRiff ∧
        ((ErrKind.invalidRiff = ErrKind.noDataChunk ∧
            AudioData.find_data_chunk emptyBuf = none)
          ∨ (∃ p, AudioData.find_data_chunk emptyBuf = some p ∧
              ((ErrKind.invalidRiff = ErrKind.incompleteDataChunk ∧
                  emptyBuf.length < p + 8)
                ∨ (ErrKind.invalidRiff = ErrKind.incompleteAudioBytes ∧
                    p + 8 ≤ emptyBuf.length ∧
                    emptyBuf.length < p + 8 + readU32LE emptyBuf (p + 4))
                ∨ (ErrKind.invalidRiff = ErrKind.malformedSampleData ∧
                    p + 8 + readU32LE emptyBuf (p + 4) ≤ emptyBuf.length ∧
                    readU32LE emptyBuf (p + 4) % 2 = 1)))))
    ∨ (∃ audio, AudioData.try_from emptyBuf = RRes.ok audio ∧
        ErrKind.invalidRiff = ErrKind.unsupportedChannelLayout ∧
        audio.channels ≠ 1 ∧ audio.channels ≠ 2)) :=
  ⟨rfl, pipeline_first_error emptyBuf 5 ErrKind.invalidRiff rfl⟩

/-- Reading a byte of a slice reads the underlying buffer at the shifted
position, as long as the position is inside the slice bounds. -/
theorem byteAt_slice (data : List Nat) (a b j : Nat) (h1 : j < b - a) :
    byteAt (slice data a b) j = byteAt data (a + j) := by
  simp [byteAt, slice, List.getD_eq_getElem?_getD, List.getElem?_take, h1,
    List.getElem?_drop]

/-- Every visited frame index is below the total frame count. -/
theorem visited_frames_lt (total_frames spi : Nat) (hspi : 0 < spi) :
    ∀ f ∈ visited_frames total_frames spi, f < total_frames := by
  intro f hf
  simp only [visited_frames, List.mem_map, List.mem_range] at hf
  obtain ⟨k, hk, rfl⟩ := hf
  have h3 : (k + 1) * spi ≤ total_frames + spi - 1 :=
    (Nat.le_div_iff_mul_le hspi).mp hk
  rw [Nat.add_mul, Nat.one_mul] at h3
  have h4 : 0 < total_frames := by omega
  omega

/-- C7: on any buffer passing RIFF/WAVE validation whose `"data"` chunk
declares an even size `S` with the payload inside the buffer, sample
extraction succeeds with exactly `S / 2` samples, and sample `i` is the
signed 16-bit little-endian value of payload bytes `2*i` and `2*i + 1`
(absolute offsets `p + 8 + 2*i` and `p + 8 + (2*i + 1)`), in original byte
order. -/
theorem extract_samples_exact (data : List Nat) (p : Nat)
    (hriff : WavBinary.check data = true)
    (hp : AudioData.find_data_chunk data = some p)
    (heven : readU32LE data (p + 4) % 2 = 0)
    (hbound : p + 8 + readU32LE data (p + 4) ≤ data.length) :
    ∃ samples, AudioData.extract_samples data = RRes.ok samples ∧
      samples.length = readU32LE data (p + 4) / 2 ∧
      ∀ i, i < readU32LE data (p + 4) / 2 →
        samples[i]? = some (i16_from_le (byteAt data (p + 8 + 2 * i))
          (byteAt data (p + 8 + (2 * i + 1)))) := by
  have hlen : (slice data (p + 8) (p + 8 + readU32LE data (p + 4))).length
      = readU32LE data (p + 4) := by
    simp only [slice, List.length_take, List.length_drop]
    omega
  have hextract : AudioData.extract_samples data = RRes.ok
      ((List.range (readU32LE data (p + 4) / 2)).map fun i =>
        i16_from_le
          (byteAt (slice data (p + 8) (p + 8 + readU32LE data (p + 4))) (2 * i))
          (byteAt (slice data (p + 8) (p + 8 + readU32LE data (p + 4))) (2 * i + 1))) := by
    simp only [AudioData.extract_samples, hp]
    rw [if_neg (by omega), if_neg (by omega)]
    simp only [AudioData.bytes_to_i16_samples, hlen]
    rw [if_neg (by omega)]
  refine ⟨_, hextract, ?_, ?_⟩
  · simp
  · intro i hi
    have h2i : 2 * i < readU32LE data (p + 4) := by omega
    have h2i1 : 2 * i + 1 < readU32LE data (p + 4) := by omega
    rw [List.getElem?_map, List.getElem?_range hi]
    simp only [Option.map_some']
    rw [byteAt_slice data (p + 8) (p + 8 + readU32LE data (p + 4)) (2 * i) (by omega),
      byteAt_slice data (p + 8) (p + 8 + readU32LE data (p + 4)) (2 * i + 1) (by omega)]

/-- C7, witness on `c7buf`: data chunk at offset 12, declared size 8, four
samples extracted. -/
theorem extract_samples_exact_witness :
    (WavBinary.check c7buf = true ∧
      AudioData.find_data_chunk c7buf = some 12 ∧
      readU32LE c7buf (12 + 4) % 2 = 0 ∧
      12 + 8 + readU32LE c7buf (12 + 4) ≤ c7buf.length) ∧
    (∃ samples, AudioData.extract_samples c7buf = RRes.ok samples ∧
      samples.length = readU32LE c7buf (12 + 4) / 2 ∧
      ∀ i, i < readU32LE c7buf (12 + 4) / 2 →
        samples[i]? = some (i16_from_le (byteAt c7buf (12 + 8 + 2 * i))
          (byteAt c7buf (12 + 8 + (2 * i + 1))))) :=
  ⟨⟨by decide, c7buf_find, by decide, by decide⟩,
    extract_samples_exact c7buf 12 (by decide) c7buf_find (by decide) (by decide)⟩

/-- C8: for every rated audio with channel count 1 or 2 and
`samples_per_interval = source_rate / target_rate ≥ 1`, the reducer
succeeds and each output sequence has exactly
`(total_frames + samples_per_interval - 1) / samples_per_interval
 = ⌈total_frames / samples_per_interval⌉` points, one per visited frame
`0, samples_per_interval, 2 * samples_per_interval, ...`, all of which are
below `total_frames = samples.length / channels`. -/
theorem reducer_point_count (r : RatedAudioData)
    (hch : r.audio_data.channels = 1 ∨ r.audio_data.channels = 2)
    (hspi : 1 ≤ r.audio_data.sample_rate / r.sample_rate) :
    ∃ pres, StereoAudioPresentation.try_from r = RRes.ok pres ∧
      pres.left_channel_points.length
        = (r.audio_data.samples.length / r.audio_data.channels
            + r.audio_data.sample_rate / r.sample_rate - 1)
          / (r.audio_data.sample_rate / r.sample_rate) ∧
      pres.right_channel_points.length
        = (r.audio_data.samples.length / r.audio_data.channels
            + r.audio_data.sample_rate / r.sample_rate - 1)
          / (r.audio_data.sample_rate / r.sample_rate) ∧
      pres.left_channel_points
        = (visited_frames (r.audio_data.samples.length / r.audio_data.channels)
            (r.audio_data.sample_rate / r.sample_rate)).map
            (fun f => normalize (first_sample r.audio_data.samples r.audio_data.channels f)) ∧
      pres.right_channel_points
        = (visited_frames (r.audio_data.samples.length / r.audio_data.channels)
            (r.audio_data.sample_rate / r.sample_rate)).map
            (fun f => normalize (second_sample r.audio_data.samples r.audio_data.channels f)) ∧
      ∀ f ∈ visited_frames (r.audio_data.samples.length / r.audio_data.channels)
          (r.audio_data.sample_rate / r.sample_rate),
        f < r.audio_data.samples.length / r.audio_data.channels := by
  have hc : ¬ (r.audio_data.channels ≠ 1 ∧ r.audio_data.channels ≠ 2) := by
    rcases hch with h | h <;> simp [h]
  have hr : ¬ r.sample_rate = 0 := by
    intro h0
    rw [h0, Nat.div_zero] at hspi
    omega
  have hI : 0 < r.audio_data.sample_rate / r.sample_rate := hspi
  refine ⟨⟨(visited_frames (r.audio_data.samples.length / r.audio_data.channels)
        (r.audio_data.sample_rate / r.sample_rate)).map
        (fun f => normalize (first_sample r.audio_data.samples r.audio_data.channels f)),
      (visited_frames (r.audio_data.samples.length / r.audio_data.channels)
        (r.audio_data.sample_rate / r.sample_rate)).map
        (fun f => normalize (second_sample r.audio_data.samples r.audio_data.channels f))⟩,
    ?_, ?_, ?_, rfl, rfl, visited_frames_lt _ _ hI⟩
  · simp only [StereoAudioPresentation.try_from]
    rw [if_neg hc, if_neg hr, if_neg (by omega),
      reduce_loop_zero _ _ _ _ hI]
  · simp [visited_frames]
  · simp [visited_frames]

/-- C8, witness: one mono sample at source rate 5 reduced at 5 Hz: one
interval per point, one point. -/
theorem reducer_point_count_witness :
    (((⟨⟨[0], 1, 5⟩, 5⟩ : RatedAudioData).audio_data.channels = 1 ∨
        (⟨⟨[0], 1, 5⟩, 5⟩ : RatedAudioData).audio_data.channels = 2) ∧
      1 ≤ (5 : Nat) / 5) ∧
    (∃ pres, StereoAudioPresentation.try_from ⟨⟨[0], 1, 5⟩, 5⟩ = RRes.ok pres ∧
      pres.left_channel_points.length = (1 + 5 / 5 - 1) / (5 / 5) ∧
      pres.right_channel_points.length = (1 + 5 / 5 - 1) / (5 / 5) ∧
      pres.left_channel_points
        = (visited_frames 1 (5 / 5)).map (fun f => normalize (first_sample [0] 1 f)) ∧
      pres.right_channel_points
        = (visited_frames 1 (5 / 5)).map (fun f => normalize (second_sample [0] 1 f)) ∧
      ∀ f ∈ visited_frames 1 (5 / 5), f < 1) :=
  ⟨⟨Or.inl rfl, by decide⟩,
    reducer_point_count ⟨⟨[0], 1, 5⟩, 5⟩ (Or.inl rfl) (by decide)⟩

/-- C9: on every accepted input the two output sequences have identical
length, and on mono input (channel count 1) they are pointwise identical. -/
theorem mono_pointwise_and_length (r : RatedAudioData) (pres : StereoAudioPresentation)
    (h : StereoAudioPresentation.try_from r = RRes.ok pres) :
    (r.audio_data.channels = 1 →
      pres.left_channel_points = pres.right_channel_points) ∧
    pres.left_channel_points.length = pres.right_channel_points.length := by
  simp only [StereoAudioPresentation.try_from] at h
  by_cases hc : r.audio_data.channels ≠ 1 ∧ r.audio_data.channels ≠ 2
  · rw [if_pos hc] at h
    exact absurd h (by simp)
  rw [if_neg hc] at h
  by_cases hr : r.sample_rate = 0
  · rw [if_pos hr] at h
    exact absurd h (by simp)
  rw [if_neg hr] at h
  by_cases hI : r.audio_data.sample_rate / r.sample_rate = 0
  · rw [if_pos hI] at h
    exact absurd h (by simp)
  rw [if_neg hI] at h
  have hI2 : 0 < r.audio_data.sample_rate / r.sample_rate := Nat.pos_of_ne_zero hI
  rw [reduce_loop_zero _ _ _ _ hI2] at h
  injection h with h2
  rw [← h2]
  constructor
  · intro h1
    simp only
    apply List.map_congr_left
    intro f _
    simp [second_sample, first_sample, h1]
  · simp

/-- C9, witness: the one-sample mono reduction of `r0_eval` has equal,
pointwise-identical channels. -/
theorem mono_pointwise_and_length_witness :
    StereoAudioPresentation.try_from ⟨⟨[0], 1, 5⟩, 5⟩
      = RRes.ok ⟨[normalize 0], [normalize 0]⟩ ∧
    (((⟨⟨[0], 1, 5⟩, 5⟩ : RatedAudioData).audio_data.channels = 1 →
        ([normalize 0] : List ℚ) = [normalize 0]) ∧
      ([normalize 0] : List ℚ).length = ([normalize 0] : List ℚ).length) :=
  ⟨r0_eval,
    mono_pointwise_and_length ⟨⟨[0], 1, 5⟩, 5⟩ ⟨[normalize 0], [normalize 0]⟩ r0_eval⟩

/-- C10, counterexample: the maximum sample value 32767 normalizes to
exactly 1 (numerator `32767 + 32768 = 65535` equals the divisor), not to a
value strictly below 1; and the values at 0 and 1 are below 0.50002 and
0.50003 respectively, so the spec figures `≈0.500038` and `≈0.500053` do
not match the code. -/
theorem normalize_endpoint_cex :
    normalize 32767 = 1 ∧ ¬ normalize 32767 < 1 ∧
    normalize 0 < 0.50002 ∧ normalize 1 < 0.50003 := by
  refine ⟨?_, ?_, ?_, ?_⟩ <;> norm_num [normalize]

/-- C10, amended: normalization maps `v` to `(v + 32768) / 65535`, sending
`-32768` to exactly 0, `0` to `32768 / 65535 ≈ 0.500008`, `1` to
`32769 / 65535 ≈ 0.500023`, and `32767` to exactly 1; every sample value in
the signed 16-bit range lands in `[0, 1]`. -/
theorem normalize_fixed_points :
    normalize (-32768) = 0 ∧
    normalize 0 = 32768 / 65535 ∧
    normalize 1 = 32769 / 65535 ∧
    normalize 32767 = 1 ∧
    ∀ v : Int, -32768 ≤ v → v ≤ 32767 → 0 ≤ normalize v ∧ normalize v ≤ 1 := by
  refine ⟨by norm_num [normalize], by norm_num [normalize],
    by norm_num [normalize], by norm_num [normalize], ?_⟩
  intro v h1 h2
  have hv1 : (-32768 : ℚ) ≤ (v : ℚ) := by exact_mod_cast h1
  have hv2 : ((v : ℚ)) ≤ 32767 := by exact_mod_cast h2
  unfold normalize
  constructor
  · apply div_nonneg
    · linarith
    · norm_num
  · rw [div_le_one (by norm_num)]
    linarith

/-- C10, witness for the amended theorem at sample value 0. -/
theorem normalize_fixed_points_witness :
    ((-32768 : Int) ≤ 0 ∧ (0 : Int) ≤ 32767) ∧
    (0 ≤ normalize 0 ∧ normalize 0 ≤ 1) :=
  ⟨⟨by decide, by decide⟩,
    normalize_fixed_points.2.2.2.2 0 (by decide) (by decide)⟩

end BramAudio
